import Mathlib

/-!
Shallow embedding of the `price-scraper` server (`src/unnamed/part_000`).

The embedding models the `/api/scrape` Express handler: query parsing,
the in-memory TTL cache, the Costco static fast path, the shared
browser launch, the selector-fallback extraction loop and the price
value normalizer.  Network and DOM effects are abstracted as oracles
(a `World`), and resource actions (browser launch, context open/close,
navigation, static fetch) are recorded as an event trace so that the
resource-lifecycle claims can be stated.
-/

namespace PriceScraper

/-- A finite decimal `mant / 10 ^ fracLen`: the exact value of every
number `parseFloat` produces on the digits-and-periods strings the
normalizer feeds it.  Kept in this structural form so that results are
computable by kernel reduction; `Dec.toQ` interprets it in `ℚ`. -/
structure Dec where
  mant : Nat
  fracLen : Nat
deriving DecidableEq, Repr

/-- Numeric value of a decimal. -/
def Dec.toQ (d : Dec) : ℚ := (d.mant : ℚ) / (10 : ℚ) ^ d.fracLen

/-- A JSON value produced by the handler: either a string or a number. -/
inductive JsValue where
  | str (s : String)
  | num (d : Dec)
deriving DecidableEq, Repr

/-- JavaScript `String.prototype.includes`: `needle` occurs as a
contiguous substring of `hay`. -/
def includesSub (needle : List Char) : List Char → Bool
  | [] => needle.isEmpty
  | c :: t => needle.isPrefixOf (c :: t) || includesSub needle t

/-- `value.replace(/[^\d.,]/g, "")` — keep only digits, commas, periods. -/
def stripNonNum (cs : List Char) : List Char :=
  cs.filter (fun c => c.isDigit || c == ',' || c == '.')

/-- `.replace(",", ".")` — JavaScript `String.replace` with a string
pattern replaces only the first occurrence. -/
def replaceFirstComma : List Char → List Char
  | [] => []
  | c :: cs => if c == ',' then '.' :: cs else c :: replaceFirstComma cs

/-- Digits to their numeric value (most significant first). -/
def digitsToNat (cs : List Char) : Nat :=
  cs.foldl (fun acc c => 10 * acc + (c.toNat - '0'.toNat)) 0

/-- JavaScript `parseFloat` restricted to the character set that survives
`stripNonNum`/`replaceFirstComma` (digits, periods, commas): parse the
longest prefix of the form `digits`, `digits.digits?` or `.digits`; if no
such non-empty prefix exists the result is `NaN`, modelled as `none`. -/
def parseFloatDec (cs : List Char) : Option Dec :=
  let intPart := cs.takeWhile Char.isDigit
  let rest := cs.drop intPart.length
  match rest with
  | '.' :: rest2 =>
      let fracPart := rest2.takeWhile Char.isDigit
      if intPart.isEmpty && fracPart.isEmpty then none
      else some ⟨digitsToNat intPart * 10 ^ fracPart.length + digitsToNat fracPart,
                 fracPart.length⟩
  | _ => if intPart.isEmpty then none else some ⟨digitsToNat intPart, 0⟩

/-- The value-normalization branch of the extract loop
(`src/unnamed/part_000` lines 135-141): for a field whose name contains
`"price"` and a non-empty raw value, strip every character that is not a
digit, comma or period, replace the first comma with a period, parse with
`parseFloat`, and fall back to the raw string when parsing yields `NaN`;
every other field passes through as a string (empty when absent). -/
def normalizeField (key value : String) : JsValue :=
  if includesSub "price".data key.data && value != "" then
    match parseFloatDec (replaceFirstComma (stripNonNum value.data)) with
    | some d => JsValue.num d
    | none => JsValue.str value
  else JsValue.str value

/-! ### Association maps

JavaScript `Map` and plain objects, as used for `cache`, `selectors` and
`out`: lookup by key, insert-or-overwrite keeping the first insertion
position. -/

/-- `Map.get` / property read: first binding of the key, if any. -/
def mapGet {α : Type} : List (String × α) → String → Option α
  | [], _ => none
  | (k0, v0) :: rest, k => if k0 = k then some v0 else mapGet rest k

/-- `Map.set` / property write: overwrite the first binding of the key in
place, or append a new binding at the end. -/
def mapSet {α : Type} : List (String × α) → String → α → List (String × α)
  | [], k, v => [(k, v)]
  | (k0, v0) :: rest, k, v =>
      if k0 = k then (k, v) :: rest else (k0, v0) :: mapSet rest k v

/-- The keys of an association map, in order. -/
def mapKeys {α : Type} (m : List (String × α)) : List String :=
  m.map Prod.fst

/-! ### The selector catalog and the extraction loop -/

/-- The `selectors` object of the `/api/scrape` handler
(`src/unnamed/part_000` lines 107-122): per field name, the ordered
candidate selector chain. -/
def selectors : List (String × List String) :=
  [ ("price",
      [ "#corePrice_feature_div .a-offscreen",
        "#apex_desktop .a-offscreen",
        "#tp_price_block_total_price_ww .a-offscreen",
        "#priceblock_ourprice",
        "#priceblock_dealprice" ]),
    ("title", ["#productTitle", "meta[property=\x27og:title\x27]"]),
    ("rating",
      ["#acrPopover .a-icon-alt", "span[data-hook=\x27rating-out-of-text\x27]"]),
    ("c_price", ["meta[property=\x27product:price:amount\x27]"]),
    ("c_title", ["meta[property=\x27og:title\x27]"]) ]

/-- `selectors[key] || []`: unknown field names get an empty chain. -/
def getSelectors (key : String) : List String :=
  (mapGet selectors key).getD []

/-- The inner candidate loop of the extract loop
(`src/unnamed/part_000` lines 127-134).  The rendered page is abstracted
as an oracle from selector to extracted text: `none` when no element
matches (`page.$ ` returns null), `some s` when an element matches and
its trimmed text content / `content` attribute is `s`.  First candidate
with a non-empty value wins; otherwise the field's raw value is `""`. -/
def extractField (page : String → Option String) : List String → String
  | [] => ""
  | sel :: rest =>
      match page sel with
      | some v => if v = "" then extractField page rest else v
      | none => extractField page rest

/-- One fully extracted-and-normalized field of the browser path:
the body of the extract loop (`src/unnamed/part_000` lines 125-142). -/
def browserExtract (page : String → Option String) (key : String) : JsValue :=
  normalizeField key (extractField page (getSelectors key))

/-- `out` after the extract loop: each wanted key written in order. -/
def buildOut (f : String → JsValue) (wanted : List String) :
    List (String × JsValue) :=
  wanted.foldl (fun m k => mapSet m k (f k)) []

/-! ### Request parsing, cache, routing -/

/-- JavaScript `String.prototype.split(",")`: split on every comma; the
empty string yields one empty segment. -/
def splitOnComma : List Char → List (List Char)
  | [] => [[]]
  | c :: cs =>
      if c == ',' then [] :: splitOnComma cs
      else
        match splitOnComma cs with
        | [] => [[c]]
        | seg :: segs => (c :: seg) :: segs

/-- JavaScript `String.prototype.trim`: drop leading and trailing
whitespace. -/
def trimChars (cs : List Char) : List Char :=
  ((cs.dropWhile Char.isWhitespace).reverse.dropWhile Char.isWhitespace).reverse

/-- `String(fields).split(",").map(s => s.trim()).filter(Boolean)`
(`src/unnamed/part_000` line 57). -/
def parseWanted (fields : String) : List String :=
  ((splitOnComma fields.data).map (fun cs => String.mk (trimChars cs))).filter
    (fun s => s ≠ "")

/-- `wanted.join(",")`. -/
def joinComma : List String → String
  | [] => ""
  | [s] => s
  | s :: rest => s ++ "," ++ joinComma rest

/-- The cache key (`src/unnamed/part_000` line 60): the raw url and the
wanted fields joined with commas, in request order. -/
def cacheKeyOf (url : String) (wanted : List String) : String :=
  url ++ "::" ++ joinComma wanted

/-- `TTL = 15 * 60 * 1000` milliseconds (`src/unnamed/part_000` line 25). -/
def TTL : Nat := 15 * 60 * 1000

/-- The scrape result payload (`src/unnamed/part_000` line 146):
`{ headers: wanted, values: wanted.map(k => out[k] ?? ""), raw: out }`. -/
structure ScrapeResult where
  headers : List String
  values : List JsValue
  raw : List (String × JsValue)
deriving DecidableEq, Repr

/-- One cache entry `{ t, data }`. -/
structure CacheEntry where
  t : Nat
  data : ScrapeResult
deriving DecidableEq, Repr

/-- The cache-hit test (`src/unnamed/part_000` lines 61-62):
`hit && Date.now() - hit.t < TTL`. -/
def cacheHit (cache : List (String × CacheEntry)) (key : String) (now : Nat) :
    Option ScrapeResult :=
  match mapGet cache key with
  | some e => if (now : Int) - (e.t : Int) < (TTL : Int) then some e.data else none
  | none => none

/-- ASCII lowercasing, as `String.prototype.toLowerCase` acts on the
ASCII hostnames the handler sees. -/
def toLowerChars (cs : List Char) : List Char :=
  cs.map Char.toLower

/-- `suffix` is a suffix of `cs`. -/
def endsWithList (suffix cs : List Char) : Bool :=
  suffix.reverse.isPrefixOf cs.reverse

/-- `/\.costco\.ca$/.test(hostname)` with
`hostname = u.hostname.toLowerCase()` (`src/unnamed/part_000` lines 66-67). -/
def isCostcoHost (host : String) : Bool :=
  endsWithList ".costco.ca".data (toLowerChars host.data)

/-- The guard of the Costco fast path (`src/unnamed/part_000` line 70):
`isCostco && (wanted.includes("c_price") || wanted.includes("c_title"))`. -/
def takesStaticPath (host : String) (wanted : List String) : Bool :=
  isCostcoHost host && (wanted.contains "c_price" || wanted.contains "c_title")

/-- Which fields the Costco static fetch can produce: `fetchCostcoMeta`
returns only `c_price` and `c_title` (`src/unnamed/part_000` lines 40-42,
73-74). -/
def staticFields : List String := ["c_price", "c_title"]

/-! ### The request handler

The `/api/scrape` handler (`src/unnamed/part_000` lines 54-154), with its
I/O abstracted: `World` fixes the outcome of the network-facing calls for
one request, and the resource actions the handler performs are recorded
as an event trace. -/

/-- Resource actions performed by one request, in order. -/
inductive Event where
  | staticFetchEv
  | browserLaunchEv
  | contextOpen
  | navigateEv
  | contextClose
deriving DecidableEq, Repr, BEq

/-- Outcome of the network-facing calls for one request.
`costcoMeta` is what `fetchCostcoMeta` resolves to: `none` when the fetch
fails or the response status is not ok, otherwise the `(c_price, c_title)`
meta contents (possibly empty strings).  `page` is the rendered page as a
selector oracle.  `gotoFails` says whether `page.goto` throws (for
example a navigation timeout). -/
structure World where
  costcoMeta : Option (String × String)
  page : String → Option String
  gotoFails : Bool

/-- Process-wide mutable state: the shared `browserPromise` (with a count
of how many times `chromium.launch` ran) and the `cache` map. -/
structure ServerState where
  browserPromise : Option Nat
  launches : Nat
  cache : List (String × CacheEntry)
deriving DecidableEq, Repr

/-- A response body: a scrape result or an `{ error: msg }` object. -/
inductive Body where
  | result (r : ScrapeResult)
  | error (msg : String)
deriving DecidableEq, Repr

/-- An HTTP response: status, optional `Cache-Control` header, body. -/
structure HttpResponse where
  status : Nat
  cacheControl : Option String
  body : Body
deriving DecidableEq, Repr

/-- `out` as assembled by the Costco fast path
(`src/unnamed/part_000` lines 73-74): `c_price` then `c_title`, each only
when requested, holding the raw meta strings. -/
def costcoOut (wanted : List String) (mp mt : String) :
    List (String × JsValue) :=
  let o1 := if wanted.contains "c_price" then mapSet [] "c_price" (JsValue.str mp) else []
  if wanted.contains "c_title" then mapSet o1 "c_title" (JsValue.str mt) else o1

/-- `{ headers: wanted, values: wanted.map(k => out[k] ?? ""), raw: out }`
(`src/unnamed/part_000` lines 75 and 146). -/
def mkResult (wanted : List String) (out : List (String × JsValue)) :
    ScrapeResult :=
  { headers := wanted,
    values := wanted.map (fun k => (mapGet out k).getD (JsValue.str "")),
    raw := out }

/-- The state update of `getBrowser` inside the handler: launch (and
record the promise) when `browserPromise` is still null. -/
def launchSt (st : ServerState) : ServerState :=
  match st.browserPromise with
  | some _ => st
  | none =>
      { st with browserPromise := some st.launches, launches := st.launches + 1 }

/-- The launch event of `getBrowser` inside the handler: one
`chromium.launch` when `browserPromise` is still null, none otherwise. -/
def launchEvs (st : ServerState) : List Event :=
  match st.browserPromise with
  | some _ => []
  | none => [Event.browserLaunchEv]

/-- The browser path (`src/unnamed/part_000` lines 83-149): `getBrowser`
(launching once, the promise being assigned before any suspension point),
`newContext`, `newPage`, `goto`, the extract loop, `context.close()` and
the response.  When `goto` throws, control jumps to the handler's catch
block (lines 150-153), which answers 500 and does not close the context. -/
def browserPath (w : World) (now : Nat) (st : ServerState) (cacheKey : String)
    (wanted : List String) (ev0 : List Event) :
    HttpResponse × ServerState × List Event :=
  let st1 := launchSt st
  let evs := ev0 ++ launchEvs st ++ [Event.contextOpen, Event.navigateEv]
  if w.gotoFails then
    ({ status := 500, cacheControl := none, body := Body.error "goto failed" },
     st1, evs)
  else
    let result := mkResult wanted (buildOut (browserExtract w.page) wanted)
    ({ status := 200, cacheControl := some "public, max-age=900",
       body := Body.result result },
     { st1 with cache := mapSet st1.cache cacheKey ⟨now, result⟩ },
     evs ++ [Event.contextClose])

/-- The `/api/scrape` handler (`src/unnamed/part_000` lines 54-154).
`host` stands for `new URL(String(url)).hostname`. -/
def handleScrape (w : World) (now : Nat) (st : ServerState)
    (url host fields : String) : HttpResponse × ServerState × List Event :=
  let wanted := parseWanted fields
  if url = "" ∨ wanted = [] then
    ({ status := 400, cacheControl := none,
       body := Body.error "Missing url or fields" }, st, [])
  else
    let cacheKey := cacheKeyOf url wanted
    match cacheHit st.cache cacheKey now with
    | some data =>
        ({ status := 200, cacheControl := none, body := Body.result data },
         st, [])
    | none =>
        if takesStaticPath host wanted then
          match w.costcoMeta with
          | some (mp, mt) =>
              let result := mkResult wanted (costcoOut wanted mp mt)
              ({ status := 200, cacheControl := none,
                 body := Body.result result },
               { st with cache := mapSet st.cache cacheKey ⟨now, result⟩ },
               [Event.staticFetchEv])
          | none => browserPath w now st cacheKey wanted [Event.staticFetchEv]
        else browserPath w now st cacheKey wanted []

/-! ### The shared browser launch

`getBrowser` (`src/unnamed/part_000` lines 9-21).  The null test and the
assignment of `browserPromise` happen in the same synchronous segment —
there is no `await` between them — so on the single-threaded event loop
each call observes and updates `browserPromise` atomically; interleaved
concurrent callers are therefore faithfully modelled as a sequence of
atomic calls. -/

/-- The state `getBrowser` touches: the shared promise (holding the
identity of the launch it resolves to) and how many times
`chromium.launch` has run. -/
structure BrowserState where
  browserPromise : Option Nat
  launches : Nat
deriving DecidableEq, Repr

/-- Process start: no promise, no launches. -/
def initBrowserState : BrowserState := ⟨none, 0⟩

/-- One `getBrowser()` call: assign the launch promise if absent, return
the (shared) promise's browser handle. -/
def getBrowserStep (st : BrowserState) : Nat × BrowserState :=
  match st.browserPromise with
  | some b => (b, st)
  | none => (st.launches, ⟨some st.launches, st.launches + 1⟩)

/-- `n` successive `getBrowser()` calls: the handles returned, and the
final state. -/
def runGetBrowser : Nat → BrowserState → List Nat × BrowserState
  | 0, st => ([], st)
  | n + 1, st =>
      let first := getBrowserStep st
      let rest := runGetBrowser n first.2
      (first.1 :: rest.1, rest.2)

/-! ### Body accessors and auxiliary predicates -/

/-- The `raw` object of a result body (`[]` for error bodies). -/
def bodyRaw : Body → List (String × JsValue)
  | Body.result r => r.raw
  | Body.error _ => []

/-- The `headers` array of a result body (`[]` for error bodies). -/
def bodyHeaders : Body → List String
  | Body.result r => r.headers
  | Body.error _ => []

/-- The `values` array of a result body (`[]` for error bodies). -/
def bodyValues : Body → List JsValue
  | Body.result r => r.values
  | Body.error _ => []

/-- Every character is a comma or whitespace (a `fields` parameter with
no field names in it). -/
def allCommaWs (cs : List Char) : Bool :=
  cs.all (fun c => c == ',' || c.isWhitespace)

/-! ### Concrete fixtures used by witnesses and counterexamples -/

/-- A rendered Amazon-style page: a price element and a title element. -/
def demoPage : String → Option String := fun sel =>
  if sel = "#corePrice_feature_div .a-offscreen" then some "$24.99"
  else if sel = "#productTitle" then some "Widget" else none

/-- A request whose browser navigation succeeds on `demoPage`. -/
def wBrowser : World := ⟨none, demoPage, false⟩

/-- A request to a Costco page whose meta fetch succeeds. -/
def wCostco : World := ⟨some ("19.99", "Kirkland Thing"), fun _ => none, false⟩

/-- A request whose `page.goto` throws (navigation timeout). -/
def wTimeout : World := ⟨none, fun _ => none, true⟩

/-- Fresh process state: no browser, empty cache. -/
def stEmpty : ServerState := ⟨none, 0, []⟩

/-- A cached payload used to populate fixture caches. -/
def demoResult : ScrapeResult :=
  ⟨["price", "title"], [JsValue.num ⟨2499, 2⟩, JsValue.str "Widget"],
   [("price", JsValue.num ⟨2499, 2⟩), ("title", JsValue.str "Widget")]⟩

/-- A state whose cache holds `demoResult` for a price+title request,
stored at time 0. -/
def stCached : ServerState :=
  ⟨none, 0,
   [(cacheKeyOf "https://www.amazon.ca/dp/B0TEST" ["price", "title"],
     ⟨0, demoResult⟩)]⟩

/-! ### Helper lemmas -/

theorem mapGet_mapSet_self {α : Type} (m : List (String × α)) (k : String) (v : α) :
    mapGet (mapSet m k v) k = some v := by
  induction m with
  | nil => simp [mapGet, mapSet]
  | cons hd tl ih =>
      obtain ⟨k0, v0⟩ := hd
      by_cases h : k0 = k
      · simp [mapGet, mapSet, h]
      · simp [mapGet, mapSet, h, ih]

theorem mapGet_mapSet_ne {α : Type} (m : List (String × α)) (k k' : String) (v : α)
    (h : k' ≠ k) : mapGet (mapSet m k v) k' = mapGet m k' := by
  have h2 : k ≠ k' := Ne.symm h
  induction m with
  | nil => simp [mapGet, mapSet, h2]
  | cons hd tl ih =>
      obtain ⟨k0, v0⟩ := hd
      by_cases h0 : k0 = k
      · subst h0
        simp [mapGet, mapSet, h2]
      · simp only [mapSet, if_neg h0]
        by_cases h1 : k0 = k'
        · simp [mapGet, h1]
        · simp [mapGet, h1, ih]

theorem foldl_mapSet_get (f : String → JsValue) (ws : List String)
    (m : List (String × JsValue)) (k : String) :
    mapGet (ws.foldl (fun acc k0 => mapSet acc k0 (f k0)) m) k =
      if k ∈ ws then some (f k) else mapGet m k := by
  induction ws generalizing m with
  | nil => simp
  | cons a rest ih =>
      simp only [List.foldl_cons, ih]
      by_cases hmem : k ∈ rest
      · simp [hmem, List.mem_cons]
      · by_cases hka : k = a
        · subst hka
          simp [hmem, mapGet_mapSet_self]
        · simp [hmem, hka, mapGet_mapSet_ne m a k (f a) hka]

theorem buildOut_get (f : String → JsValue) (ws : List String) (k : String) :
    mapGet (buildOut f ws) k = if k ∈ ws then some (f k) else none := by
  simpa [mapGet] using foldl_mapSet_get f ws [] k

theorem mem_mapKeys_mapSet {α : Type} (m : List (String × α)) (k x : String) (v : α)
    (hx : x ∈ mapKeys (mapSet m k v)) : x = k ∨ x ∈ mapKeys m := by
  induction m with
  | nil => simpa [mapKeys, mapSet] using hx
  | cons hd tl ih =>
      obtain ⟨k0, v0⟩ := hd
      by_cases h0 : k0 = k
      · subst h0
        simpa [mapKeys, mapSet] using hx
      · simp only [mapSet, if_neg h0, mapKeys, List.map_cons, List.mem_cons] at hx
        rcases hx with h | h
        · exact Or.inr (by simp [mapKeys, h])
        · rcases ih h with h1 | h1
          · exact Or.inl h1
          · exact Or.inr (by simp [mapKeys] at h1 ⊢; exact Or.inr h1)

theorem nodup_mapKeys_mapSet {α : Type} (m : List (String × α)) (k : String) (v : α)
    (hm : (mapKeys m).Nodup) : (mapKeys (mapSet m k v)).Nodup := by
  induction m with
  | nil => simp [mapKeys, mapSet]
  | cons hd tl ih =>
      obtain ⟨k0, v0⟩ := hd
      simp only [mapKeys, List.map_cons, List.nodup_cons] at hm
      by_cases h0 : k0 = k
      · subst h0
        simpa [mapKeys, mapSet, List.nodup_cons] using hm
      · simp only [mapSet, if_neg h0, mapKeys, List.map_cons, List.nodup_cons]
        refine ⟨fun hmem => ?_, ih hm.2⟩
        rcases mem_mapKeys_mapSet tl k k0 v hmem with h1 | h1
        · exact h0 h1
        · exact hm.1 h1

theorem nodup_mapKeys_foldl (f : String → JsValue) (ws : List String)
    (m : List (String × JsValue)) (hm : (mapKeys m).Nodup) :
    (mapKeys (ws.foldl (fun acc k0 => mapSet acc k0 (f k0)) m)).Nodup := by
  induction ws generalizing m with
  | nil => simpa using hm
  | cons a rest ih =>
      simpa using ih (mapSet m a (f a)) (nodup_mapKeys_mapSet m a (f a) hm)

theorem nodup_buildOut_keys (f : String → JsValue) (ws : List String) :
    (mapKeys (buildOut f ws)).Nodup := by
  exact nodup_mapKeys_foldl f ws [] (by simp [mapKeys])

theorem runGetBrowser_launched (n : Nat) (b l : Nat) :
    runGetBrowser n ⟨some b, l⟩ = (List.replicate n b, ⟨some b, l⟩) := by
  induction n with
  | zero => simp [runGetBrowser]
  | succ k ih => simp [runGetBrowser, getBrowserStep, ih, List.replicate_succ]

/-! ### Path lemmas for the handler -/

theorem handleScrape_cacheFresh (w : World) (now t : Nat) (st : ServerState)
    (url host fields : String) (r : ScrapeResult)
    (hu : ¬ url = "") (hw : ¬ parseWanted fields = [])
    (hc : mapGet st.cache (cacheKeyOf url (parseWanted fields)) = some ⟨t, r⟩)
    (hf : (now : Int) - (t : Int) < (TTL : Int)) :
    handleScrape w now st url host fields =
      ({ status := 200, cacheControl := none, body := Body.result r }, st, []) := by
  have hhit : cacheHit st.cache (cacheKeyOf url (parseWanted fields)) now = some r := by
    simp [cacheHit, hc, hf]
  simp only [handleScrape]
  rw [if_neg (by simp [hu, hw]), hhit]

theorem handleScrape_cacheMiss (w : World) (now : Nat) (st : ServerState)
    (url host fields : String)
    (hu : ¬ url = "") (hw : ¬ parseWanted fields = [])
    (hmiss : cacheHit st.cache (cacheKeyOf url (parseWanted fields)) now = none) :
    handleScrape w now st url host fields =
      (if takesStaticPath host (parseWanted fields) then
        match w.costcoMeta with
        | some (mp, mt) =>
            ({ status := 200, cacheControl := none,
               body := Body.result (mkResult (parseWanted fields)
                 (costcoOut (parseWanted fields) mp mt)) },
             { st with cache := (mapSet st.cache (cacheKeyOf url (parseWanted fields))
                 (CacheEntry.mk now (mkResult (parseWanted fields)
                   (costcoOut (parseWanted fields) mp mt)))) },
             [Event.staticFetchEv])
        | none =>
            browserPath w now st (cacheKeyOf url (parseWanted fields))
              (parseWanted fields) [Event.staticFetchEv]
       else
        browserPath w now st (cacheKeyOf url (parseWanted fields))
          (parseWanted fields) []) := by
  simp only [handleScrape]
  rw [if_neg (by simp [hu, hw]), hmiss]

theorem browserPath_gotoFails (w : World) (now : Nat) (st : ServerState)
    (cacheKey : String) (wanted : List String) (ev0 : List Event)
    (h : w.gotoFails = true) :
    browserPath w now st cacheKey wanted ev0 =
      ({ status := 500, cacheControl := none, body := Body.error "goto failed" },
       launchSt st, ev0 ++ launchEvs st ++ [Event.contextOpen, Event.navigateEv]) := by
  simp [browserPath, h]

theorem browserPath_ok (w : World) (now : Nat) (st : ServerState)
    (cacheKey : String) (wanted : List String) (ev0 : List Event)
    (h : w.gotoFails = false) :
    browserPath w now st cacheKey wanted ev0 =
      ({ status := 200, cacheControl := some "public, max-age=900",
         body := Body.result (mkResult wanted (buildOut (browserExtract w.page) wanted)) },
       { launchSt st with cache := (mapSet (launchSt st).cache cacheKey
           (CacheEntry.mk now (mkResult wanted (buildOut (browserExtract w.page) wanted)))) },
       ev0 ++ launchEvs st ++
         [Event.contextOpen, Event.navigateEv, Event.contextClose]) := by
  simp [browserPath, h]

theorem handleScrape_hit (w : World) (now : Nat) (st : ServerState)
    (url host fields : String) (r : ScrapeResult)
    (hu : ¬ url = "") (hw : ¬ parseWanted fields = [])
    (hhit : cacheHit st.cache (cacheKeyOf url (parseWanted fields)) now = some r) :
    handleScrape w now st url host fields =
      ({ status := 200, cacheControl := none, body := Body.result r }, st, []) := by
  simp only [handleScrape]
  rw [if_neg (by simp [hu, hw]), hhit]

theorem launchSt_cache (st : ServerState) : (launchSt st).cache = st.cache := by
  cases h : st.browserPromise <;> simp [launchSt, h]

theorem launchEvs_eq (st : ServerState) :
    launchEvs st = [] ∨ launchEvs st = [Event.browserLaunchEv] := by
  cases h : st.browserPromise <;> simp [launchEvs, h]

theorem costcoOut_get_price (wanted : List String) (mp mt : String)
    (h : wanted.contains "c_price" = true) :
    mapGet (costcoOut wanted mp mt) "c_price" = some (JsValue.str mp) := by
  simp only [costcoOut, if_pos h]
  by_cases h2 : wanted.contains "c_title"
  · rw [if_pos h2, mapGet_mapSet_ne _ _ _ _ (by decide)]
    simp [mapSet, mapGet]
  · rw [if_neg h2]
    simp [mapSet, mapGet]

theorem browserExtract_unknown (page : String → Option String) (k : String)
    (h : mapGet selectors k = none) :
    browserExtract page k = JsValue.str "" := by
  simp [browserExtract, getSelectors, h, extractField, normalizeField]

theorem trimChars_of_allWs (cs : List Char)
    (h : ∀ c ∈ cs, Char.isWhitespace c = true) : trimChars cs = [] := by
  have h1 : cs.dropWhile Char.isWhitespace = [] := by
    rw [List.dropWhile_eq_nil_iff]
    exact h
  simp [trimChars, h1]

theorem splitOnComma_ne_nil (cs : List Char) : splitOnComma cs ≠ [] := by
  cases cs with
  | nil => simp [splitOnComma]
  | cons c rest =>
      simp only [splitOnComma]
      by_cases h : c == ','
      · simp [h]
      · simp only [h]
        cases hs : splitOnComma rest <;> simp

theorem splitOnComma_allWs (cs : List Char)
    (h : allCommaWs cs = true) :
    ∀ seg ∈ splitOnComma cs, ∀ c ∈ seg, Char.isWhitespace c = true := by
  induction cs with
  | nil =>
      intro seg hseg
      simp [splitOnComma] at hseg
      simp [hseg]
  | cons c rest ih =>
      simp only [allCommaWs, List.all_cons, Bool.and_eq_true] at h
      have hrest := ih h.2
      intro seg hseg
      simp only [splitOnComma] at hseg
      by_cases hc : c == ','
      · rw [if_pos hc] at hseg
        rcases List.mem_cons.mp hseg with h1 | h1
        · simp [h1]
        · exact hrest seg h1
      · rw [if_neg hc] at hseg
        have hcw : Char.isWhitespace c = true := by
          rcases (Bool.or_eq_true _ _).mp h.1 with h2 | h2
          · exact absurd h2 hc
          · exact h2
        cases hsp : splitOnComma rest with
        | nil => exact absurd hsp (splitOnComma_ne_nil rest)
        | cons seg0 segs =>
            rw [hsp] at hseg
            rcases List.mem_cons.mp hseg with h1 | h1
            · subst h1
              intro x hx
              rcases List.mem_cons.mp hx with h2 | h2
              · subst h2; exact hcw
              · exact hrest seg0 (by simp [hsp]) x h2
            · exact hrest seg (by simp [hsp, h1])

theorem parseWanted_allCommaWs (fields : String)
    (h : allCommaWs fields.data = true) : parseWanted fields = [] := by
  have hsegs := splitOnComma_allWs fields.data h
  simp only [parseWanted, List.filter_eq_nil_iff]
  intro s hs
  rcases List.mem_map.mp hs with ⟨seg, hseg, hmk⟩
  have : trimChars seg = [] := trimChars_of_allWs seg (hsegs seg hseg)
  simp [← hmk, this]

/-! ### Claim theorems -/

/-- C1 (counterexample): the Value Normalizer does not turn the raw input
`"$1,234.56"` into the number `1234.56`: stripping keeps `"1,234.56"`,
the first (thousands) comma becomes a period giving `"1.234.56"`, and
`parseFloat` stops at the second period, so the output is the number
`1.234`. -/
theorem c1_counterexample :
    normalizeField "price" "$1,234.56" = JsValue.num ⟨1234, 3⟩ ∧
    Dec.toQ ⟨1234, 3⟩ ≠ (1234.56 : ℚ) :=
  ⟨by decide, by norm_num [Dec.toQ]⟩

/-- C1 (amended): for a price-like field with non-empty raw value the
normalizer strips every character that is not a digit, comma or period,
replaces the first comma with a period, parses the result as a float and
falls back to the unchanged raw string when parsing fails; concretely
`"$1,234.56"` normalizes to the number `1.234` (not `1234.56`),
`"CDN$ 19.99"` to `19.99`, and `"Free"` to the raw string `"Free"`. -/
theorem c1_thm :
    normalizeField "price" "$1,234.56" = JsValue.num ⟨1234, 3⟩ ∧
    Dec.toQ ⟨1234, 3⟩ = (1.234 : ℚ) ∧
    normalizeField "price" "CDN$ 19.99" = JsValue.num ⟨1999, 2⟩ ∧
    Dec.toQ ⟨1999, 2⟩ = (19.99 : ℚ) ∧
    normalizeField "price" "Free" = JsValue.str "Free" ∧
    (∀ k v, includesSub "price".data k.data = true → ¬ v = "" →
      parseFloatDec (replaceFirstComma (stripNonNum v.data)) = none →
      normalizeField k v = JsValue.str v) ∧
    (∀ k v d, includesSub "price".data k.data = true → ¬ v = "" →
      parseFloatDec (replaceFirstComma (stripNonNum v.data)) = some d →
      normalizeField k v = JsValue.num d) := by
  refine ⟨by decide, by norm_num [Dec.toQ], by decide, by norm_num [Dec.toQ],
    by decide, ?_, ?_⟩
  · intro k v hk hv hparse
    simp [normalizeField, hk, hv, hparse]
  · intro k v d hk hv hparse
    simp [normalizeField, hk, hv, hparse]

/-- C2: on a request whose navigation throws (navigation timeout), the
handler answers 500 from its catch block but never runs
`context.close()`: the trace opens one context and closes none, so the
context leaks, contradicting the claim that every acquired context is
released on every exit path. -/
theorem c2_thm :
    (handleScrape wTimeout 0 stEmpty "https://www.amazon.ca/dp/B0TEST"
      "www.amazon.ca" "price").1.status = 500 ∧
    ((handleScrape wTimeout 0 stEmpty "https://www.amazon.ca/dp/B0TEST"
      "www.amazon.ca" "price").2.2).count Event.contextOpen = 1 ∧
    ((handleScrape wTimeout 0 stEmpty "https://www.amazon.ca/dp/B0TEST"
      "www.amazon.ca" "price").2.2).count Event.contextClose = 0 := by
  refine ⟨by decide, by decide, by decide⟩

/-- C3 (counterexample): the cache key does not sort the field list — it
joins the fields in request order — so the two permuted field lists
`["price", "title"]` and `["title", "price"]` produce different cache
keys for the same URL. -/
theorem c3_counterexample :
    List.Perm ["price", "title"] ["title", "price"] ∧
    cacheKeyOf "https://www.amazon.ca/dp/B0TEST" ["price", "title"] ≠
      cacheKeyOf "https://www.amazon.ca/dp/B0TEST" ["title", "price"] :=
  ⟨List.Perm.swap "title" "price" [], by decide⟩

/-- C3 (amended): the cache key is the URL and the field list joined with
commas in request order (not sorted); a second request with the same URL
and the same parsed field list in the same order, arriving while the
entry is within TTL, is answered from the cache — unchanged state and no
extraction events — whereas permuted field orders produce different keys
(see the counterexample). -/
theorem c3_thm (w : World) (now t : Nat) (st : ServerState)
    (url host fields fields2 : String) (r : ScrapeResult)
    (hu : ¬ url = "") (hw : ¬ parseWanted fields = [])
    (hsame : parseWanted fields2 = parseWanted fields)
    (hc : mapGet st.cache (cacheKeyOf url (parseWanted fields)) = some ⟨t, r⟩)
    (hf : (now : Int) - (t : Int) < (TTL : Int)) :
    cacheKeyOf url (parseWanted fields) =
      url ++ "::" ++ joinComma (parseWanted fields) ∧
    handleScrape w now st url host fields2 =
      ({ status := 200, cacheControl := none, body := Body.result r }, st, []) := by
  refine ⟨rfl, ?_⟩
  exact handleScrape_cacheFresh w now t st url host fields2 r hu
    (by rw [hsame]; exact hw) (by rw [hsame]; exact hc) hf

/-- C3 witness: a cached price+title request replayed (with extra
whitespace but the same field order) at time 1 is served from the cache
untouched. -/
theorem c3_witness :
    cacheKeyOf "https://www.amazon.ca/dp/B0TEST" (parseWanted "price,title") =
      "https://www.amazon.ca/dp/B0TEST" ++ "::" ++
        joinComma (parseWanted "price,title") ∧
    handleScrape wBrowser 1 stCached "https://www.amazon.ca/dp/B0TEST"
        "www.amazon.ca" " price , title " =
      ({ status := 200, cacheControl := none, body := Body.result demoResult },
       stCached, []) :=
  c3_thm wBrowser 1 0 stCached "https://www.amazon.ca/dp/B0TEST"
    "www.amazon.ca" "price,title" " price , title " demoResult
    (by decide) (by decide) (by decide) (by decide) (by decide)

/-- C8: starting from process start, any number of `getBrowser()` calls
launches the browser at most once, and every caller receives the same
browser handle (the one produced by the single launch). -/
theorem c8_thm (n : Nat) :
    (runGetBrowser n initBrowserState).1 = List.replicate n 0 ∧
    (runGetBrowser n initBrowserState).2.launches ≤ 1 := by
  cases n with
  | zero => simp [runGetBrowser, initBrowserState]
  | succ k =>
      have h := runGetBrowser_launched k 0 1
      constructor
      · simp [runGetBrowser, getBrowserStep, initBrowserState, h,
          List.replicate_succ]
      · simp [runGetBrowser, getBrowserStep, initBrowserState, h]

/-- C4 (counterexample): the static fast path is taken as soon as the
host matches `\.costco\.ca$` and at least ONE of `c_price`/`c_title` is
requested — not only when ALL requested fields are satisfiable from meta
tags: the request for `c_price,rating` is served entirely by the static
path (events = one static fetch, status 200) although `rating` is not a
meta-satisfiable field and ends up absent from `raw`. -/
theorem c4_counterexample :
    (handleScrape wCostco 0 stEmpty "https://www.costco.ca/p" "www.costco.ca"
      "c_price,rating").2.2 = [Event.staticFetchEv] ∧
    (handleScrape wCostco 0 stEmpty "https://www.costco.ca/p" "www.costco.ca"
      "c_price,rating").1.status = 200 ∧
    "rating" ∈ parseWanted "c_price,rating" ∧
    ¬ "rating" ∈ staticFields ∧
    mapGet (bodyRaw (handleScrape wCostco 0 stEmpty "https://www.costco.ca/p"
      "www.costco.ca" "c_price,rating").1.body) "rating" = none := by
  decide

/-- C4 (amended): on a cache miss the static-only path is taken exactly
when the host matches the Costco pattern AND at least one of `c_price`,
`c_title` is requested; when the static fetch succeeds the request
triggers no browser launch and no navigation (events are the single
static fetch, browser state untouched); when the static fetch yields no
result the request falls through to the browser path; and requests that
do not satisfy the guard never perform a static fetch. -/
theorem c4_thm (w : World) (now : Nat) (st : ServerState)
    (url host fields : String)
    (hu : ¬ url = "") (hw : ¬ parseWanted fields = [])
    (hmiss : cacheHit st.cache (cacheKeyOf url (parseWanted fields)) now = none) :
    takesStaticPath host (parseWanted fields) =
      (isCostcoHost host && ((parseWanted fields).contains "c_price" ||
        (parseWanted fields).contains "c_title")) ∧
    (takesStaticPath host (parseWanted fields) = true →
      w.costcoMeta.isSome = true →
      (handleScrape w now st url host fields).2.2 = [Event.staticFetchEv] ∧
      (handleScrape w now st url host fields).1.status = 200 ∧
      (handleScrape w now st url host fields).2.1.browserPromise =
        st.browserPromise ∧
      (handleScrape w now st url host fields).2.1.launches = st.launches) ∧
    (takesStaticPath host (parseWanted fields) = true → w.costcoMeta = none →
      Event.navigateEv ∈ (handleScrape w now st url host fields).2.2) ∧
    (takesStaticPath host (parseWanted fields) = false →
      ¬ Event.staticFetchEv ∈ (handleScrape w now st url host fields).2.2) := by
  rw [handleScrape_cacheMiss w now st url host fields hu hw hmiss]
  refine ⟨rfl, ?_, ?_, ?_⟩
  · intro hts hsome
    rw [if_pos hts]
    cases hm : w.costcoMeta with
    | none => rw [hm] at hsome; simp at hsome
    | some pr =>
        obtain ⟨mp, mt⟩ := pr
        simp
  · intro hts hm
    rw [if_pos hts, hm]
    by_cases hg : w.gotoFails
    · rw [browserPath_gotoFails _ _ _ _ _ _ hg]
      simp
    · rw [browserPath_ok _ _ _ _ _ _ (by simpa using hg)]
      simp
  · intro hts
    rw [if_neg (by simp [hts])]
    by_cases hg : w.gotoFails
    · rw [browserPath_gotoFails _ _ _ _ _ _ hg]
      rcases launchEvs_eq st with h | h <;> simp [h]
    · rw [browserPath_ok _ _ _ _ _ _ (by simpa using hg)]
      rcases launchEvs_eq st with h | h <;> simp [h]

/-- C4 witness: the amended routing property at a concrete Costco
request for `c_price,rating` against a fresh state. -/
theorem c4_witness :
    takesStaticPath "www.costco.ca" (parseWanted "c_price,rating") =
      (isCostcoHost "www.costco.ca" &&
        ((parseWanted "c_price,rating").contains "c_price" ||
          (parseWanted "c_price,rating").contains "c_title")) ∧
    (takesStaticPath "www.costco.ca" (parseWanted "c_price,rating") = true →
      wCostco.costcoMeta.isSome = true →
      (handleScrape wCostco 0 stEmpty "https://www.costco.ca/p" "www.costco.ca"
        "c_price,rating").2.2 = [Event.staticFetchEv] ∧
      (handleScrape wCostco 0 stEmpty "https://www.costco.ca/p" "www.costco.ca"
        "c_price,rating").1.status = 200 ∧
      (handleScrape wCostco 0 stEmpty "https://www.costco.ca/p" "www.costco.ca"
        "c_price,rating").2.1.browserPromise = stEmpty.browserPromise ∧
      (handleScrape wCostco 0 stEmpty "https://www.costco.ca/p" "www.costco.ca"
        "c_price,rating").2.1.launches = stEmpty.launches) ∧
    (takesStaticPath "www.costco.ca" (parseWanted "c_price,rating") = true →
      wCostco.costcoMeta = none →
      Event.navigateEv ∈ (handleScrape wCostco 0 stEmpty
        "https://www.costco.ca/p" "www.costco.ca" "c_price,rating").2.2) ∧
    (takesStaticPath "www.costco.ca" (parseWanted "c_price,rating") = false →
      ¬ Event.staticFetchEv ∈ (handleScrape wCostco 0 stEmpty
        "https://www.costco.ca/p" "www.costco.ca" "c_price,rating").2.2) :=
  c4_thm wCostco 0 stEmpty "https://www.costco.ca/p" "www.costco.ca"
    "c_price,rating" (by decide) (by decide) (by decide)

/-- C5 (counterexample): the Costco static fast path does NOT pass its
result through the Value Normalizer: the extracted meta price `"19.99"`
parses to a number, yet the response carries the raw string
`JsValue.str "19.99"` where the normalizer would produce the number
`19.99`. -/
theorem c5_counterexample :
    (handleScrape wCostco 0 stEmpty "https://www.costco.ca/p" "www.costco.ca"
      "c_price").1.body =
      Body.result ⟨["c_price"], [JsValue.str "19.99"],
        [("c_price", JsValue.str "19.99")]⟩ ∧
    normalizeField "c_price" "19.99" = JsValue.num ⟨1999, 2⟩ ∧
    JsValue.str "19.99" ≠ JsValue.num ⟨1999, 2⟩ := by
  decide

/-- C5 (amended): only the browser path passes extracted values through
the Value Normalizer — every requested field of a browser-path response
carries `normalizeField` applied to the extracted text — while the
Costco static fast path stores the raw meta string for `c_price`
without normalization. -/
theorem c5_thm (w : World) (now : Nat) (st : ServerState)
    (url host fields k mp mt : String)
    (hu : ¬ url = "") (hw : ¬ parseWanted fields = [])
    (hmiss : cacheHit st.cache (cacheKeyOf url (parseWanted fields)) now = none) :
    (takesStaticPath host (parseWanted fields) = false → w.gotoFails = false →
      k ∈ parseWanted fields →
      mapGet (bodyRaw (handleScrape w now st url host fields).1.body) k =
        some (browserExtract w.page k)) ∧
    (takesStaticPath host (parseWanted fields) = true →
      w.costcoMeta = some (mp, mt) →
      (parseWanted fields).contains "c_price" = true →
      mapGet (bodyRaw (handleScrape w now st url host fields).1.body)
        "c_price" = some (JsValue.str mp)) := by
  rw [handleScrape_cacheMiss w now st url host fields hu hw hmiss]
  constructor
  · intro hts hg hk
    rw [if_neg (by simp [hts]), browserPath_ok _ _ _ _ _ _ hg]
    simp only [bodyRaw, mkResult]
    rw [buildOut_get]
    simp [hk]
  · intro hts hm hk
    rw [if_pos hts, hm]
    simp only [bodyRaw, mkResult]
    exact costcoOut_get_price _ mp mt hk

/-- C5 witness: the browser path normalizes `price` on a concrete Amazon
request (and the static conjunct holds vacuously there). -/
theorem c5_witness :
    (takesStaticPath "www.amazon.ca" (parseWanted "price,title") = false →
      wBrowser.gotoFails = false →
      "price" ∈ parseWanted "price,title" →
      mapGet (bodyRaw (handleScrape wBrowser 0 stEmpty
        "https://www.amazon.ca/dp/B0TEST" "www.amazon.ca"
        "price,title").1.body) "price" =
        some (browserExtract wBrowser.page "price")) ∧
    (takesStaticPath "www.amazon.ca" (parseWanted "price,title") = true →
      wBrowser.costcoMeta = some ("19.99", "Kirkland Thing") →
      (parseWanted "price,title").contains "c_price" = true →
      mapGet (bodyRaw (handleScrape wBrowser 0 stEmpty
        "https://www.amazon.ca/dp/B0TEST" "www.amazon.ca"
        "price,title").1.body) "c_price" = some (JsValue.str "19.99")) :=
  c5_thm wBrowser 0 stEmpty "https://www.amazon.ca/dp/B0TEST" "www.amazon.ca"
    "price,title" "price" "19.99" "Kirkland Thing"
    (by decide) (by decide) (by decide)

/-- C6 (counterexample): a successful static fast-path response carries
no `Cache-Control` header, contradicting the claim that every successful
`/api/scrape` response does. -/
theorem c6_counterexample :
    (handleScrape wCostco 0 stEmpty "https://www.costco.ca/p" "www.costco.ca"
      "c_price").1.status = 200 ∧
    (handleScrape wCostco 0 stEmpty "https://www.costco.ca/p" "www.costco.ca"
      "c_price").1.cacheControl = none := by
  decide

/-- C6 (amended): the `Cache-Control: public, max-age=900` header is set
exactly on browser-path successes — the responses whose trace closes a
context; cache hits, static fast-path successes, 400s and 500s carry no
`Cache-Control` header. -/
theorem c6_thm (w : World) (now : Nat) (st : ServerState)
    (url host fields : String) :
    ((handleScrape w now st url host fields).1.cacheControl =
        some "public, max-age=900") ↔
      Event.contextClose ∈ (handleScrape w now st url host fields).2.2 := by
  by_cases h0 : url = "" ∨ parseWanted fields = []
  · simp only [handleScrape, if_pos h0]
    simp
  · have hu : ¬ url = "" := fun h => h0 (Or.inl h)
    have hw : ¬ parseWanted fields = [] := fun h => h0 (Or.inr h)
    cases hhit : cacheHit st.cache (cacheKeyOf url (parseWanted fields)) now with
    | some r =>
        rw [handleScrape_hit w now st url host fields r hu hw hhit]
        simp
    | none =>
        rw [handleScrape_cacheMiss w now st url host fields hu hw hhit]
        by_cases hts : takesStaticPath host (parseWanted fields)
        · rw [if_pos hts]
          cases hm : w.costcoMeta with
          | some pr =>
              obtain ⟨mp, mt⟩ := pr
              simp
          | none =>
              by_cases hg : w.gotoFails
              · rw [browserPath_gotoFails _ _ _ _ _ _ hg]
                rcases launchEvs_eq st with h | h <;> simp [h]
              · rw [browserPath_ok _ _ _ _ _ _ (by simpa using hg)]
                simp
        · rw [if_neg hts]
          by_cases hg : w.gotoFails
          · rw [browserPath_gotoFails _ _ _ _ _ _ hg]
            rcases launchEvs_eq st with h | h <;> simp [h]
          · rw [browserPath_ok _ _ _ _ _ _ (by simpa using hg)]
            simp

/-- C7: a cache read returns the stored payload exactly while
`now - t < TTL` with `TTL` = 15 minutes; on a stale entry the handler
re-runs extraction (the trace navigates again) and overwrites the entry
wholesale with the fresh payload at the new timestamp, leaving every
other key untouched (entries are replaced, never mutated). -/
theorem c7_thm (w : World) (now t now2 t2 : Nat) (st : ServerState)
    (url host fields : String) (rOld r2 : ScrapeResult)
    (m : List (String × CacheEntry)) (k k' : String)
    (hu : ¬ url = "") (hw : ¬ parseWanted fields = [])
    (hstale : mapGet st.cache (cacheKeyOf url (parseWanted fields)) =
      some ⟨t, rOld⟩)
    (hexp : ¬ ((now : Int) - (t : Int) < (TTL : Int)))
    (hts : takesStaticPath host (parseWanted fields) = false)
    (hg : w.gotoFails = false)
    (hk' : ¬ k' = cacheKeyOf url (parseWanted fields)) :
    TTL = 15 * 60 * 1000 ∧
    (mapGet m k = some ⟨t2, r2⟩ →
      (cacheHit m k now2 = some r2 ↔ (now2 : Int) - (t2 : Int) < (TTL : Int))) ∧
    (mapGet m k = none → cacheHit m k now2 = none) ∧
    Event.navigateEv ∈ (handleScrape w now st url host fields).2.2 ∧
    mapGet (handleScrape w now st url host fields).2.1.cache
        (cacheKeyOf url (parseWanted fields)) =
      some ⟨now, mkResult (parseWanted fields)
        (buildOut (browserExtract w.page) (parseWanted fields))⟩ ∧
    mapGet (handleScrape w now st url host fields).2.1.cache k' =
      mapGet st.cache k' := by
  have hmiss : cacheHit st.cache (cacheKeyOf url (parseWanted fields)) now =
      none := by
    simp [cacheHit, hstale, hexp]
  rw [handleScrape_cacheMiss w now st url host fields hu hw hmiss,
      if_neg (by simp [hts]), browserPath_ok _ _ _ _ _ _ hg]
  refine ⟨rfl, ?_, ?_, ?_, ?_, ?_⟩
  · intro hm
    constructor
    · intro hh
      by_contra hfresh
      simp [cacheHit, hm, hfresh] at hh
    · intro hfresh
      simp [cacheHit, hm, hfresh]
  · intro hm
    simp [cacheHit, hm]
  · simp
  · simp only [launchSt_cache]
    exact mapGet_mapSet_self _ _ _
  · simp only [launchSt_cache]
    exact mapGet_mapSet_ne _ _ _ _ hk'

/-- C7 witness: the stored price+title entry (written at time 0) is
stale at `now = TTL`; the repeated request re-navigates and replaces the
entry wholesale, leaving another key untouched, and the pure gate facts
hold for the fixture cache at `now2 = 1`. -/
theorem c7_witness :
    TTL = 15 * 60 * 1000 ∧
    (mapGet stCached.cache
        (cacheKeyOf "https://www.amazon.ca/dp/B0TEST" ["price", "title"]) =
      some ⟨0, demoResult⟩ →
      (cacheHit stCached.cache
          (cacheKeyOf "https://www.amazon.ca/dp/B0TEST" ["price", "title"]) 1 =
        some demoResult ↔ (1 : Int) - (0 : Int) < (TTL : Int))) ∧
    (mapGet stCached.cache
        (cacheKeyOf "https://www.amazon.ca/dp/B0TEST" ["price", "title"]) =
      none →
      cacheHit stCached.cache
        (cacheKeyOf "https://www.amazon.ca/dp/B0TEST" ["price", "title"]) 1 =
        none) ∧
    Event.navigateEv ∈ (handleScrape wBrowser TTL stCached
      "https://www.amazon.ca/dp/B0TEST" "www.amazon.ca" "price,title").2.2 ∧
    mapGet (handleScrape wBrowser TTL stCached
        "https://www.amazon.ca/dp/B0TEST" "www.amazon.ca"
        "price,title").2.1.cache
        (cacheKeyOf "https://www.amazon.ca/dp/B0TEST"
          (parseWanted "price,title")) =
      some ⟨TTL, mkResult (parseWanted "price,title")
        (buildOut (browserExtract wBrowser.page) (parseWanted "price,title"))⟩ ∧
    mapGet (handleScrape wBrowser TTL stCached
        "https://www.amazon.ca/dp/B0TEST" "www.amazon.ca"
        "price,title").2.1.cache "otherKey" = mapGet stCached.cache "otherKey" :=
  c7_thm wBrowser TTL 0 1 0 stCached "https://www.amazon.ca/dp/B0TEST"
    "www.amazon.ca" "price,title" demoResult demoResult stCached.cache
    (cacheKeyOf "https://www.amazon.ca/dp/B0TEST" ["price", "title"]) "otherKey"
    (by decide) (by decide) (by decide) (by decide) (by decide) (by decide)
    (by decide)

/-- C9: for a browser-path request the response is a 200 whose `headers`
equal the requested field list in request order, whose `values` array
has the same length and is positionally aligned — `values[i]` is the
normalized extraction for `headers[i]` — and a field with no entry in
the selector catalog contributes the empty string at its position
without error. -/
theorem c9_thm (w : World) (now : Nat) (st : ServerState)
    (url host fields : String) (i : Nat) (k : String)
    (hu : ¬ url = "") (hw : ¬ parseWanted fields = [])
    (hmiss : cacheHit st.cache (cacheKeyOf url (parseWanted fields)) now = none)
    (hts : takesStaticPath host (parseWanted fields) = false)
    (hg : w.gotoFails = false) :
    (handleScrape w now st url host fields).1.status = 200 ∧
    bodyHeaders (handleScrape w now st url host fields).1.body =
      parseWanted fields ∧
    (bodyValues (handleScrape w now st url host fields).1.body).length =
      (parseWanted fields).length ∧
    (bodyValues (handleScrape w now st url host fields).1.body).get? i =
      ((parseWanted fields).get? i).map (browserExtract w.page) ∧
    (k ∈ parseWanted fields → mapGet selectors k = none →
      mapGet (bodyRaw (handleScrape w now st url host fields).1.body) k =
        some (JsValue.str "")) := by
  rw [handleScrape_cacheMiss w now st url host fields hu hw hmiss,
      if_neg (by simp [hts]), browserPath_ok _ _ _ _ _ _ hg]
  simp only [bodyHeaders, bodyValues, bodyRaw, mkResult]
  refine ⟨by simp, by simp, by simp, ?_, ?_⟩
  · rw [List.get?_map]
    cases hgi : (parseWanted fields).get? i with
    | none => simp
    | some k0 =>
        have hk0 : k0 ∈ parseWanted fields := List.get?_mem hgi
        simp only [Option.map_some']
        rw [buildOut_get]
        simp [hk0]
  · intro hk hsel
    rw [buildOut_get]
    simp [hk, browserExtract_unknown w.page k hsel]

/-- C9 witness: concrete alignment for a three-field request including
the unknown field `bogus`, at position 0. -/
theorem c9_witness :
    (handleScrape wBrowser 0 stEmpty "https://www.amazon.ca/dp/B0TEST"
      "www.amazon.ca" "price,title,bogus").1.status = 200 ∧
    bodyHeaders (handleScrape wBrowser 0 stEmpty
      "https://www.amazon.ca/dp/B0TEST" "www.amazon.ca"
      "price,title,bogus").1.body = parseWanted "price,title,bogus" ∧
    (bodyValues (handleScrape wBrowser 0 stEmpty
      "https://www.amazon.ca/dp/B0TEST" "www.amazon.ca"
      "price,title,bogus").1.body).length =
      (parseWanted "price,title,bogus").length ∧
    (bodyValues (handleScrape wBrowser 0 stEmpty
      "https://www.amazon.ca/dp/B0TEST" "www.amazon.ca"
      "price,title,bogus").1.body).get? 0 =
      ((parseWanted "price,title,bogus").get? 0).map
        (browserExtract wBrowser.page) ∧
    ("bogus" ∈ parseWanted "price,title,bogus" →
      mapGet selectors "bogus" = none →
      mapGet (bodyRaw (handleScrape wBrowser 0 stEmpty
        "https://www.amazon.ca/dp/B0TEST" "www.amazon.ca"
        "price,title,bogus").1.body) "bogus" = some (JsValue.str "")) :=
  c9_thm wBrowser 0 stEmpty "https://www.amazon.ca/dp/B0TEST" "www.amazon.ca"
    "price,title,bogus" 0 "bogus" (by decide) (by decide) (by decide)
    (by decide) (by decide)

/-- C10: duplicated field names are not deduplicated — `headers` is the
parsed field list with every occurrence at its own position, positions
holding the same name hold the same value, and `raw` binds each name
only once (its keys are nodup); a `fields` parameter consisting solely
of commas and whitespace parses to the empty list and yields the
400 "Missing url or fields" response. -/
theorem c10_thm (w : World) (now : Nat) (st : ServerState)
    (url host fields : String) (i j : Nat)
    (hu : ¬ url = "") :
    (¬ parseWanted fields = [] →
      cacheHit st.cache (cacheKeyOf url (parseWanted fields)) now = none →
      takesStaticPath host (parseWanted fields) = false → w.gotoFails = false →
      bodyHeaders (handleScrape w now st url host fields).1.body =
        parseWanted fields ∧
      ((parseWanted fields).get? i = (parseWanted fields).get? j →
        (bodyValues (handleScrape w now st url host fields).1.body).get? i =
          (bodyValues (handleScrape w now st url host fields).1.body).get? j) ∧
      (mapKeys (bodyRaw (handleScrape w now st url host fields).1.body)).Nodup) ∧
    (allCommaWs fields.data = true →
      handleScrape w now st url host fields =
        ({ status := 400, cacheControl := none,
           body := Body.error "Missing url or fields" }, st, [])) := by
  constructor
  · intro hw hmiss hts hg
    rw [handleScrape_cacheMiss w now st url host fields hu hw hmiss,
        if_neg (by simp [hts]), browserPath_ok _ _ _ _ _ _ hg]
    simp only [bodyHeaders, bodyValues, bodyRaw, mkResult]
    refine ⟨by simp, ?_, nodup_buildOut_keys _ _⟩
    intro hij
    rw [List.get?_map, List.get?_map, hij]
  · intro hcw
    have hwempty : parseWanted fields = [] := parseWanted_allCommaWs fields hcw
    simp only [handleScrape]
    rw [if_pos (Or.inr hwempty)]

/-- C10 witness: the duplicated request `price,title,price` keeps both
occurrences of `price` aligned with equal values and a single `raw`
binding (and the all-commas conjunct is vacuous at this input). -/
theorem c10_witness :
    (¬ parseWanted "price,title,price" = [] →
      cacheHit stEmpty.cache (cacheKeyOf "https://www.amazon.ca/dp/B0TEST"
        (parseWanted "price,title,price")) 0 = none →
      takesStaticPath "www.amazon.ca" (parseWanted "price,title,price") =
        false →
      wBrowser.gotoFails = false →
      bodyHeaders (handleScrape wBrowser 0 stEmpty
        "https://www.amazon.ca/dp/B0TEST" "www.amazon.ca"
        "price,title,price").1.body = parseWanted "price,title,price" ∧
      ((parseWanted "price,title,price").get? 0 =
          (parseWanted "price,title,price").get? 2 →
        (bodyValues (handleScrape wBrowser 0 stEmpty
          "https://www.amazon.ca/dp/B0TEST" "www.amazon.ca"
          "price,title,price").1.body).get? 0 =
          (bodyValues (handleScrape wBrowser 0 stEmpty
            "https://www.amazon.ca/dp/B0TEST" "www.amazon.ca"
            "price,title,price").1.body).get? 2) ∧
      (mapKeys (bodyRaw (handleScrape wBrowser 0 stEmpty
        "https://www.amazon.ca/dp/B0TEST" "www.amazon.ca"
        "price,title,price").1.body)).Nodup) ∧
    (allCommaWs "price,title,price".data = true →
      handleScrape wBrowser 0 stEmpty "https://www.amazon.ca/dp/B0TEST"
        "www.amazon.ca" "price,title,price" =
        ({ status := 400, cacheControl := none,
           body := Body.error "Missing url or fields" }, stEmpty, [])) :=
  c10_thm wBrowser 0 stEmpty "https://www.amazon.ca/dp/B0TEST" "www.amazon.ca"
    "price,title,price" 0 2 (by decide)

end PriceScraper
